import Mathlib

/-!
Shallow embedding of the browser-connection provisioning and search
subsystem of the cli-music-player repository
(src/search_provider/youtube_scraper.rs, src/search_provider/interface.rs,
src/download_provider/interface.rs, src/common/factory.rs).

Modelling conventions:
* Rust String / str values are modelled as Lean List Char.  The source
  mixes byte indices (str::find) with character iteration (chars().skip);
  the two coincide on the ASCII data handled by every property below, and
  the model uses character positions throughout.
* A Rust panic reached through unwrap / expect on runtime data is modelled
  as the value none of an Option-typed result; a Rust Result that is
  returned to the caller is modelled as Except.
* External effects (Browser::connect, Browser::default, the docker process
  invocations, page navigation and DOM attribute extraction) are modelled
  as oracle functions passed in as explicit arguments; the textual inputs
  handed to the oracles are built exactly as the source builds them.
* The regular expression of ProxyConfig::is_valid_url,
  ws://(?P<url>[^:/]*)(?P<port>:\d*)?/devtools/browser/(?P<token>.+$),
  is embedded by an equivalent executable matcher.  Regex::is_match is
  unanchored, and the trailing .+$ pins every match to the end of the
  haystack, so a string matches iff some suffix of it matches the pattern
  anchored at both ends.  Inside the pattern, [^:/] is any character other
  than a colon and a slash, \d is a decimal digit (restricted here to the
  ASCII digits actually produced and consumed by the code), and the dot is
  any character other than a newline.  Since the character class after the
  protocol literal excludes exactly the two characters that start the next
  pieces of the pattern, the regex is deterministic and the matcher below
  computes its language.
-/

/-! ### Small string utilities -/

/-- Character of a single decimal digit, as produced by Rust number
formatting. -/
def digitChar (d : Nat) : Char := Char.ofNat (48 + d)

/-- Numeric value of a decimal digit character. -/
def digitVal (c : Char) : Nat := c.toNat - 48

/-- Fuel-driven core of the decimal rendering; the fuel n + 1 used by
natToStr always suffices, one unit per division by ten. -/
def natToStrAux : Nat → Nat → List Char
  | 0, _ => []
  | fuel + 1, n =>
    if n < 10 then [digitChar n]
    else natToStrAux fuel (n / 10) ++ [digitChar (n % 10)]

/-- Decimal rendering of a natural number, as Rust Display for u16
(no sign, no leading zeros); used for format bracket p in
ProxyConfig::from_components. -/
def natToStr (n : Nat) : List Char := natToStrAux (n + 1) n

/-- Base-10 accumulation over a digit string. -/
def parseDigits (s : List Char) : Nat :=
  s.foldl (fun a c => a * 10 + digitVal c) 0

/-- Drop one optional leading plus sign, as Rust integer FromStr does. -/
def stripPlus (s : List Char) : List Char :=
  match s with
  | c :: r => if c = '+' then r else s
  | [] => s

/-- Rust str::parse::<u16>() : succeeds on an optional plus sign followed
by one or more ASCII digits whose value fits in u16, fails otherwise. -/
def parseU16 (s : List Char) : Option Nat :=
  let s2 := stripPlus s
  if s2.isEmpty then none
  else if s2.all Char.isDigit then
    if parseDigits s2 ≤ 65535 then some (parseDigits s2) else none
  else none

/-- Anchored prefix removal: some r iff the scanned list is pat ++ r. -/
def stripPre : List Char → List Char → Option (List Char)
  | [], s => some s
  | _ :: _, [] => none
  | p :: ps, c :: cs => if p = c then stripPre ps cs else none

/-- Index of the first occurrence of a character, as Rust str::find of a
one-character pattern (byte index = character index on ASCII data). -/
def charIdx (c : Char) : List Char → Option Nat
  | [] => none
  | x :: xs => if x = c then some 0 else (charIdx c xs).map Nat.succ

/-- Index of the first occurrence of a substring, as Rust str::find. -/
def findSub (pat : List Char) : List Char → Option Nat
  | [] => if pat.isPrefixOf ([] : List Char) then some 0 else none
  | c :: cs =>
    if pat.isPrefixOf (c :: cs) then some 0
    else (findSub pat cs).map Nat.succ

/-- Rust str::contains. -/
def containsSub (pat s : List Char) : Bool := (findSub pat s).isSome

/-! ### The endpoint codec (ProxyConfig) -/

/-- The protocol literal of the endpoint shape. -/
def wsLit : List Char := "ws://".data

/-- The path literal of the endpoint shape. -/
def devLit : List Char := "/devtools/browser/".data

/-- Matcher for /devtools/browser/(?P<token>.+$) : the literal path
followed by a non-empty run of non-newline characters reaching the end. -/
def matchPath (s : List Char) : Bool :=
  match stripPre devLit s with
  | none => false
  | some t => !t.isEmpty && t.all (fun c => !(c == '\n'))

/-- Matcher for \d*/devtools/browser/.+$ (the part after the port colon):
digits, then the path literal starting at the first slash. -/
def matchPort : List Char → Bool
  | [] => false
  | c :: cs =>
    if c.isDigit then matchPort cs
    else if c = '/' then matchPath (c :: cs)
    else false

/-- Matcher for [^:/]*(:\d*)?/devtools/browser/.+$ : host characters until
the first colon (port) or slash (path). -/
def matchHost : List Char → Bool
  | [] => false
  | c :: cs =>
    if c = ':' then matchPort cs
    else if c = '/' then matchPath (c :: cs)
    else matchHost cs

/-- The regex anchored at the start: the ws:// literal and then the rest
of the pattern. -/
def matchAnchored (s : List Char) : Bool :=
  match stripPre wsLit s with
  | none => false
  | some r => matchHost r

/-- Unanchored Regex::is_match of the end-anchored pattern: true iff some
suffix matches the anchored pattern. -/
def matchSomewhere : List Char → Bool
  | [] => matchAnchored []
  | c :: cs => matchAnchored (c :: cs) || matchSomewhere cs

/-- ProxyConfig from the source: the validated debug websocket URL. -/
structure ProxyConfig where
  debug_ws_url : List Char
deriving DecidableEq

/-- ProxyConfigComponents from the source; port is Option u16, kept here
as Option Nat with values bounded by 65535 wherever the code produces
them. -/
structure ProxyConfigComponents where
  ip : List Char
  port : Option Nat
  token : List Char
deriving DecidableEq

/-- ProxyConfig::is_valid_url : Regex::is_match of the endpoint pattern. -/
def ProxyConfig.is_valid_url (url : List Char) : Bool := matchSomewhere url

/-- Error text of ProxyConfig::new (quotes and apostrophe of the original
format string elided). -/
def urlFormatErr : List Char := "url does not conform to format: ".data

/-- ProxyConfig::new : validate, then wrap the url. -/
def ProxyConfig.new (debug_ws_url : List Char) : Except (List Char) ProxyConfig :=
  if ProxyConfig.is_valid_url debug_ws_url then Except.ok ⟨debug_ws_url⟩
  else Except.error (urlFormatErr ++ debug_ws_url)

/-- ProxyConfig::from_components : format ws:// ip [: port] /devtools/browser/ token
and revalidate through new; the source unwraps the result, so a validation
failure is a panic (none). -/
def ProxyConfig.from_components (ip : List Char) (port : Option Nat) (token : List Char) :
    Option ProxyConfig :=
  let port_str : List Char := match port with | some p => ':' :: natToStr p | none => []
  match ProxyConfig.new (wsLit ++ ip ++ port_str ++ devLit ++ token) with
  | Except.ok c => some c
  | Except.error _ => none

/-- Error text of the missing-path branch of into_components. -/
def pathErrMsg : List Char := "No path, hence token, provided.".data

/-- ProxyConfig::into_components, line for line: drop the five protocol
characters; port_end is the first slash (error if none); port_start is the
first colon; addr_end is port_start when a colon exists and port_end
otherwise (the two match branches below); the port substring between the
colon and port_end is parsed with parse::<u16>().unwrap(), whose failure
is a panic (none); the token drops everything up to port_end plus the
eighteen characters of /devtools/browser/. -/
def ProxyConfig.into_components (cfg : ProxyConfig) :
    Option (Except (List Char) ProxyConfigComponents) :=
  match charIdx '/' (cfg.debug_ws_url.drop 5) with
  | none => some (Except.error pathErrMsg)
  | some port_end =>
    match charIdx ':' (cfg.debug_ws_url.drop 5) with
    | none =>
      some (Except.ok
        ⟨(cfg.debug_ws_url.drop 5).take port_end, none,
         ((cfg.debug_ws_url.drop 5).drop port_end).drop 18⟩)
    | some ps =>
      match parseU16 (((cfg.debug_ws_url.drop 5).drop (ps + 1)).take (port_end - (ps + 1))) with
      | none => none
      | some p =>
        some (Except.ok
          ⟨(cfg.debug_ws_url.drop 5).take ps, some p,
           ((cfg.debug_ws_url.drop 5).drop port_end).drop 18⟩)

/-! ### Docker provisioning (DockerConfig) -/

/-- DockerConfig from the source. -/
structure DockerConfig where
  additional_flags : List (List Char)
  image_path : List Char
  port_mapping : Option (List Char)
deriving DecidableEq

def rmFlag : List Char := "--rm".data

def dFlag : List Char := "-d".data

def capFlag : List Char := "--cap-add=SYS_ADMIN".data

def defaultImage : List Char := "docker.io/justinribeiro/chrome-headless:latest".data

/-- impl Default for DockerConfig. -/
def DockerConfig.default : DockerConfig :=
  ⟨[rmFlag, dFlag, capFlag], defaultImage, none⟩

def runLit : List Char := "run".data

def pFlagLower : List Char := "-p".data

def pFlagUpper : List Char := "-P".data

/-- The argument list of the docker run command composed by
DockerConfig::browser: run, then -p mapping or -P, then the additional
flags, then the image path. -/
def DockerConfig.runArgs (c : DockerConfig) : List (List Char) :=
  runLit ::
    ((match c.port_mapping with
      | some pm => [pFlagLower, pm]
      | none => [pFlagUpper]) ++ c.additional_flags ++ [c.image_path])

/-- DockerConfig::try_get_debug_ws_url : find ws:// in the line, and keep
the substring from there to the end of the line provided the whole line
also contains /devtools/browser/ (the containment test is over the whole
line, not over the part after ws://). -/
def DockerConfig.try_get_debug_ws_url (line : List Char) : Option (List Char) :=
  match findSub wsLit line with
  | none => none
  | some i => if containsSub devLit line then some (line.drop i) else none

/-- Error text of the no-match branch of debug_ws_from_log (quotes of the
original elided). -/
def noMatchMsg : List Char :=
  "docker logs has no line matching ws://*/devtools/browser/*".data

/-- DockerConfig::debug_ws_from_log : first line that yields a candidate,
else the no-match error.  Log lines are modelled as already-read strings
(the generic read-error short-circuit of the source is not exercised). -/
def DockerConfig.debug_ws_from_log : List (List Char) → Except (List Char) (List Char)
  | [] => Except.error noMatchMsg
  | l :: ls =>
    match DockerConfig.try_get_debug_ws_url l with
    | some u => Except.ok u
    | none => DockerConfig.debug_ws_from_log ls

/-- DockerConfig::to_proxy_config : ProxyConfig::new(ws_url).unwrap(); a
validation failure is a panic (none). -/
def DockerConfig.to_proxy_config (ws_url : List Char) : Option ProxyConfig :=
  match ProxyConfig.new ws_url with
  | Except.ok c => some c
  | Except.error _ => none

def localhostStr : List Char := "localhost".data

/-- The port-probing loop of DockerConfig::browser: for each candidate
port in order, substitute the port into the components, rebuild a
ProxyConfig through From (from_components, whose unwrap panic is none) and
try to connect; stop at the first success; push each failure message and,
when every port failed, return the aggregate error.  The aggregate error
carries the list of per-port messages that the source interpolates into
format bracket failures. -/
def probePorts {β : Type} (connect : List Char → Except (List Char) β)
    (comps : ProxyConfigComponents) :
    List Nat → List (List Char) → Option (Except (List (List Char)) β)
  | [], failures => some (Except.error failures)
  | p :: ps, failures =>
    match ProxyConfig.from_components comps.ip (some p) comps.token with
    | none => none
    | some cfg =>
      match connect cfg.debug_ws_url with
      | Except.ok b => some (Except.ok b)
      | Except.error e => probePorts connect comps ps (failures ++ [e])

/-- DockerConfig::browser after the external docker invocations: the log
lines and the published ports are the outputs of the docker logs and
docker port commands, and connect is Browser::connect.  The candidate URL
from the logs is turned into a ProxyConfig (unwrap panic: none), split
into components (the question-mark operator propagates the error, wrapped
here as a singleton aggregate), the host is forced to localhost, and the
candidate ports are probed in order. -/
def DockerConfig.browser {β : Type} (connect : List Char → Except (List Char) β)
    (logLines : List (List Char)) (ports : List Nat) :
    Option (Except (List (List Char)) β) :=
  match DockerConfig.debug_ws_from_log logLines with
  | Except.error e => some (Except.error [e])
  | Except.ok url =>
    match DockerConfig.to_proxy_config url with
    | none => none
    | some cfg =>
      match cfg.into_components with
      | none => none
      | some (Except.error e) => some (Except.error [e])
      | some (Except.ok comps) =>
        probePorts connect { comps with ip := localhostStr } ports []

/-! ### Local browser configuration and the backend union -/

/-- ChromeConfig from the source; the idle timeout is kept in seconds. -/
structure ChromeConfig where
  headless : Bool
  sandbox : Bool
  window_size : Option (Nat × Nat)
  port : Option Nat
  path : Option (List Char)
  idle_browser_time : Nat
deriving DecidableEq

/-- impl Default for ChromeConfig. -/
def ChromeConfig.default : ChromeConfig := ⟨true, true, none, none, none, 30⟩

/-- BrowserType from the source: the closed union of connection
strategies. -/
inductive BrowserType where
  | Proxy (cfg : ProxyConfig)
  | Docker (cfg : DockerConfig)
  | Local (cfg : ChromeConfig)
deriving DecidableEq

/-- impl Default for BrowserType. -/
def BrowserType.default : BrowserType := BrowserType.Local ChromeConfig.default

/-! ### The search provider (YoutubeScraper) -/

/-- YoutubeScraper from the source: the prioritized backend list. -/
structure YoutubeScraper where
  backends : List BrowserType
deriving DecidableEq

/-- impl Default for YoutubeScraper. -/
def YoutubeScraper.default : YoutubeScraper := ⟨[BrowserType.default]⟩

/-- The proxy URL hard-coded inside YoutubeScraper::attempt_proxy. -/
def hardcodedProxyUrl : List Char :=
  "ws://localhost:9222/devtools/browser/019f2fed-ad55-4c34-9ff1-9a61d01011a0".data

/-- YoutubeScraper::attempt_proxy : Browser::connect on the hard-coded
URL, or else Browser::default() (launchDefault).  The backends field of
self is never consulted. -/
def YoutubeScraper.attempt_proxy {β : Type} (_self : YoutubeScraper)
    (connect : List Char → Except (List Char) β)
    (launchDefault : Except (List Char) β) : Except (List Char) β :=
  match connect hardcodedProxyUrl with
  | Except.ok b => Except.ok b
  | Except.error _ => launchDefault

/-- SearchQuery from the source. -/
structure SearchQuery where
  keywords : List (List Char)

def youtubeOrigin : List Char := "https://www.youtube.com".data

def resultsPrefix : List Char := "https://www.youtube.com/results?search_query=".data

def plusSep : List Char := "+".data

/-- The results-page URL of YoutubeScraper::get_links: the search prefix
followed by the keywords joined with a plus sign. -/
def buildSearchUrl (q : SearchQuery) : List Char :=
  resultsPrefix ++ List.intercalate plusSep q.keywords

/-- The link extraction of YoutubeScraper::get_links: per element, the
optional href attribute value (the chain of get_attributes and remove
collapsed to one Option); present values are prefixed with the site
origin, absent ones are dropped by filter_map. -/
def extractLinks (hrefEls : List (Option (List Char))) : List (List Char) :=
  hrefEls.filterMap (fun o => o.map (fun h => youtubeOrigin ++ h))

/-- YoutubeScraper::get_links : obtain a browser through attempt_proxy,
navigate to the built URL and extract the links; page is the oracle for
navigation, element wait and attribute reads, mapping the visited URL to
the per-element optional href values in page presentation order. -/
def YoutubeScraper.get_links {β : Type} (self : YoutubeScraper)
    (connect : List Char → Except (List Char) β)
    (launchDefault : Except (List Char) β)
    (page : List Char → List (Option (List Char))) (q : SearchQuery) :
    Except (List Char) (List (List Char)) :=
  match self.attempt_proxy connect launchDefault with
  | Except.error e => Except.error e
  | Except.ok _ => Except.ok (extractLinks (page (buildSearchUrl q)))

/-! ### The download config factory -/

/-- serde_json::Value. -/
inductive JValue where
  | null
  | jbool (b : Bool)
  | jnum (n : Int)
  | jstr (s : List Char)
  | jarr (xs : List JValue)
  | jobj (fields : List (List Char × JValue))

/-- DownloadConfig from the source (PathBuf kept as its string). -/
structure DownloadConfig where
  uri : List Char
  local_path : List Char
deriving DecidableEq

/-- Lookup of an object field. -/
def jLookup (k : List Char) : List (List Char × JValue) → Option JValue
  | [] => none
  | (k2, v) :: rest => if k2 = k then some v else jLookup k rest

/-- A JSON value as a string, when it is one. -/
def asString : JValue → Option (List Char)
  | JValue.jstr s => some s
  | _ => none

def uriKey : List Char := "uri".data

def localPathKey : List Char := "local_path".data

def missingFieldMsg : List Char := "missing or mistyped field".data

def notObjectMsg : List Char := "expected a json object".data

/-- The derived serde deserialization of DownloadConfig from a
serde_json::Value (external crate behaviour): the payload must be an
object whose uri field is a string and whose local_path field is a string
(PathBuf deserializes from a string); a missing or mistyped required
field, or a non-object payload, is a deserialization error; unknown
fields are ignored. -/
def deserializeDownloadConfig (v : JValue) : Except (List Char) DownloadConfig :=
  match v with
  | JValue.jobj fields =>
    match (jLookup uriKey fields).bind asString,
          (jLookup localPathKey fields).bind asString with
    | some u, some p => Except.ok ⟨u, p⟩
    | _, _ => Except.error missingFieldMsg
  | _ => Except.error notObjectMsg

/-- DownloadConfigForward::generate : serde_json::from_value(args).unwrap();
the Factory signature has no error channel, so a deserialization error is
a panic (none). -/
def DownloadConfigForward.generate (v : JValue) : Option DownloadConfig :=
  match deserializeDownloadConfig v with
  | Except.ok c => some c
  | Except.error _ => none

/-! ### Spec-side characterizations (stated from the claims, for the
refinement theorems) -/

/-- The host constraint of the specified URL shape: no colon, no slash. -/
def HostOk (h : List Char) : Prop := ∀ c ∈ h, c ≠ ':' ∧ c ≠ '/'

/-- The optional port segment of the specified URL shape: absent, or a
colon followed by decimal digits. -/
def PortOk (P : List Char) : Prop :=
  P = [] ∨ ∃ ds, P = ':' :: ds ∧ ∀ c ∈ ds, c.isDigit = true

/-- The token constraint with the newline restriction the dot of the
pattern imposes: non-empty, no newline. -/
def TokenOk (t : List Char) : Prop := t ≠ [] ∧ ∀ c ∈ t, c ≠ '\n'

/-- The URL shape as the matcher accepts a suffix: protocol, host,
optional port, path literal, non-empty non-newline token to the end. -/
def UrlShape (s : List Char) : Prop :=
  ∃ h P t, s = wsLit ++ h ++ P ++ devLit ++ t ∧ HostOk h ∧ PortOk P ∧ TokenOk t

/-- The URL shape exactly as the claim words it for the whole string:
protocol, host, optional port, path literal, and a token that is one or
more arbitrary characters extending to the end. -/
def ClaimShape (s : List Char) : Prop :=
  ∃ h P t, s = wsLit ++ h ++ P ++ devLit ++ t ∧ HostOk h ∧ PortOk P ∧ t ≠ []

/-- The log-line condition as the claim words it: an occurrence of ws://
followed later in the same line by /devtools/browser/. -/
def wsFollowedByDev (l : List Char) : Bool :=
  (List.range l.length).any fun i =>
    wsLit.isPrefixOf (l.drop i) && containsSub devLit (l.drop (i + 5))

/-! ### Concrete values used by the counterexamples and witnesses -/

/-- A URL the validator accepts although its port has a leading zero. -/
def c1CexUrl : List Char := "ws://h:07/devtools/browser/t".data

/-- What formatting the parse of c1CexUrl produces instead. -/
def c1CexOut : List Char := "ws://h:7/devtools/browser/t".data

/-- A string the validator accepts although it does not start with the
ws:// protocol. -/
def c2CexUrl : List Char := "xws://h/devtools/browser/t".data

/-- A log line whose /devtools/browser/ occurrence precedes its ws://
occurrence. -/
def c4CexLine : List Char := "/devtools/browser/a ws://b".data

/-- A log line whose extracted candidate URL has an empty token and so
fails validation. -/
def c7LogLine : List Char := "ws://h/devtools/browser/".data

/-- A well-formed proxy endpoint distinct from the hard-coded one. -/
def otherProxyUrl : List Char := "ws://10.0.0.5:9000/devtools/browser/aaaa".data

/-- A scraper configured with one Proxy backend at otherProxyUrl. -/
def cexScraper : YoutubeScraper := ⟨[BrowserType.Proxy ⟨otherProxyUrl⟩]⟩

/-- A connect oracle that succeeds exactly on otherProxyUrl. -/
def cexConnect : List Char → Except (List Char) Bool :=
  fun u => if u = otherProxyUrl then Except.ok true else Except.error []

def noLocalMsg : List Char := "no local browser".data

/-- A log line with no candidate URL. -/
def c4PreLine : List Char := "no url here".data

/-- A log line whose ws:// occurrence (at index 2) is followed by the
path literal. -/
def c4QualLine : List Char := "x ws://h/devtools/browser/t".data

def watchA : List Char := "/watch?v=abc".data

def watchB : List Char := "/watch?v=xyz".data

/-- A page oracle returning two href-carrying elements around one element
without an href. -/
def c8Page : List Char → List (Option (List Char)) :=
  fun _ => [some watchA, none, some watchB]

def c8Query : SearchQuery := ⟨[ "a".data, "b".data]⟩

def c8Urls : List (List Char) := [youtubeOrigin ++ watchA, youtubeOrigin ++ watchB]

/-- A log line announcing a debug URL at an internal port. -/
def c5LogLine : List Char :=
  "DevTools listening on ws://0.0.0.0:33/devtools/browser/tok".data

/-- The candidate URL the scan extracts from c5LogLine. -/
def c5Candidate : List Char := "ws://0.0.0.0:33/devtools/browser/tok".data

def tokStr : List Char := "tok".data

/-- The rebuilt endpoint the probe loop submits for candidate port p. -/
def c5Pcfg : Nat → ProxyConfig :=
  fun p => ⟨wsLit ++ localhostStr ++ (':' :: natToStr p) ++ devLit ++ tokStr⟩

/-- A connector that refuses every endpoint, echoing the URL. -/
def c5Connect : List Char → Except (List Char) Nat :=
  fun u => Except.error ('e' :: u)

/-- The per-port failure message c5Connect yields on the rebuilt
endpoint. -/
def c5Msg : Nat → List Char := fun p => 'e' :: (c5Pcfg p).debug_ws_url

/-- A log line that is itself a valid portless candidate URL. -/
def c6LogLine : List Char := "ws://a/devtools/browser/tok".data

/-- The endpoint rebuilt for the first probed port 7. -/
def c6Cfg1 : ProxyConfig :=
  ⟨wsLit ++ localhostStr ++ (':' :: natToStr 7) ++ devLit ++ tokStr⟩

/-- A connector that accepts exactly the port-7 rebuilt endpoint. -/
def c6Connect : List Char → Except (List Char) Nat :=
  fun u => if u = c6Cfg1.debug_ws_url then Except.ok 1 else Except.error []

/-! ### Helper lemmas on the string utilities -/

theorem dropLenAppend {α : Type} (a b : List α) : (a ++ b).drop a.length = b := by
  induction a with
  | nil => rfl
  | cons x xs ih => simp [ih]

theorem takeLenAppend {α : Type} (a b : List α) : (a ++ b).take a.length = a := by
  induction a with
  | nil => rfl
  | cons x xs ih => simp [ih]

theorem stripPre_append (p r : List Char) : stripPre p (p ++ r) = some r := by
  induction p with
  | nil => rfl
  | cons x xs ih => simpa [stripPre] using ih

theorem stripPre_eq_some {p s r : List Char} (h : stripPre p s = some r) : s = p ++ r := by
  induction p generalizing s with
  | nil =>
    simp only [stripPre, Option.some.injEq] at h
    simpa using h
  | cons x xs ih =>
    cases s with
    | nil => simp [stripPre] at h
    | cons c cs =>
      by_cases hx : x = c
      · subst hx
        simpa using ih (by simpa [stripPre] using h)
      · simp [stripPre, hx] at h

theorem charIdx_eq_none {c : Char} {l : List Char} (h : ∀ x ∈ l, x ≠ c) :
    charIdx c l = none := by
  induction l with
  | nil => rfl
  | cons x xs ih =>
    have hx : x ≠ c := h x (List.mem_cons_self x xs)
    simp [charIdx, hx, ih fun y hy => h y (List.mem_cons_of_mem x hy)]

theorem charIdx_append_of_not_mem {c : Char} {a : List Char} (b : List Char)
    (h : ∀ x ∈ a, x ≠ c) :
    charIdx c (a ++ b) = (charIdx c b).map (fun i => a.length + i) := by
  induction a with
  | nil => cases hb : charIdx c b <;> simp [hb]
  | cons x xs ih =>
    have hx : x ≠ c := h x (List.mem_cons_self x xs)
    have ih2 := ih fun y hy => h y (List.mem_cons_of_mem x hy)
    cases hb : charIdx c b
    · simp [charIdx, hx, ih2, hb]
    · simp [charIdx, hx, ih2, hb]
      omega

theorem charIdx_cons_self (c : Char) (l : List Char) : charIdx c (c :: l) = some 0 := by
  simp [charIdx]

/-! ### C10 -/

/-- C10: the default Docker configuration has additional_flags exactly
[--rm, -d, --cap-add=SYS_ADMIN], image_path exactly
docker.io/justinribeiro/chrome-headless:latest, and port_mapping None,
and the docker run command it composes passes the --rm and -d flags, the
only cleanup mechanism for containers the provisioner starts. -/
theorem c10_docker_defaults :
    DockerConfig.default.additional_flags =
      [ "--rm".data, "-d".data, "--cap-add=SYS_ADMIN".data] ∧
    DockerConfig.default.image_path =
      "docker.io/justinribeiro/chrome-headless:latest".data ∧
    DockerConfig.default.port_mapping = none ∧
    "--rm".data ∈ DockerConfig.default.runArgs ∧
    "-d".data ∈ DockerConfig.default.runArgs := by
  refine ⟨rfl, rfl, rfl, ?_, ?_⟩ <;> decide

/-! ### C7 -/

/-- C7: the spec requires the Docker connect path to return a malformed
candidate endpoint URL from the logs as a typed failure, never panicking;
the code instead panics.  On the log line ws://h/devtools/browser/ the
log scan succeeds with a candidate whose token is empty, validation
rejects it, and to_proxy_config unwraps the rejection: the whole connect
path panics (modelled as none) for every connector and every port list. -/
theorem c7_docker_panics_on_invalid_log_url (β : Type)
    (connect : List Char → Except (List Char) β) (ports : List Nat) :
    DockerConfig.debug_ws_from_log [c7LogLine] = Except.ok c7LogLine ∧
    ProxyConfig.is_valid_url c7LogLine = false ∧
    DockerConfig.browser connect [c7LogLine] ports = none :=
  ⟨rfl, rfl, rfl⟩

/-! ### C9 -/

/-- C9 counterexample: the claim says the default config-builder returns
a failure to the caller, rather than succeeding or panicking, when a
required field is absent; on a payload carrying only a uri the
deserialization fails and generate unwraps it, i.e. it panics (none) and
returns nothing to the caller. -/
theorem c9_generate_counterexample :
    DownloadConfigForward.generate (JValue.jobj [(uriKey, JValue.jstr ( "x".data))]) =
      none := rfl

/-- C9 amended: when a required field is absent or mistyped (its lookup
does not yield a string), the default config-builder panics on the
deserialization error instead of returning a failure; the Factory
signature offers no error channel. -/
theorem c9_generate_amended (fields : List (List Char × JValue))
    (h : (jLookup uriKey fields).bind asString = none ∨
         (jLookup localPathKey fields).bind asString = none) :
    DownloadConfigForward.generate (JValue.jobj fields) = none := by
  cases hu : (jLookup uriKey fields).bind asString with
  | none => simp [DownloadConfigForward.generate, deserializeDownloadConfig, hu]
  | some u =>
    cases hp : (jLookup localPathKey fields).bind asString with
    | none => simp [DownloadConfigForward.generate, deserializeDownloadConfig, hu, hp]
    | some p =>
      rcases h with h | h
      · exact absurd hu (by simp [h])
      · exact absurd hp (by simp [h])

theorem c9_generate_amended_witness :
    DownloadConfigForward.generate (JValue.jobj []) = none :=
  c9_generate_amended [] (Or.inl rfl)

/-! ### C3 -/

/-- C3 counterexample: the claim says the connection attempt consults the
first configured backend before falling back.  With a scraper whose first
(and only) backend is a Proxy endpoint that the connect oracle would
accept, and with the hard-coded URL and the default launch both failing,
attempt_proxy still fails: the configured backend is never consulted. -/
theorem c3_fallback_counterexample :
    cexConnect otherProxyUrl = Except.ok true ∧
    cexScraper.backends = [BrowserType.Proxy ⟨otherProxyUrl⟩] ∧
    cexScraper.attempt_proxy cexConnect (Except.error noLocalMsg) =
      Except.error noLocalMsg :=
  ⟨rfl, rfl, rfl⟩

/-- C3 amended: the search operation ignores the configured backends list
entirely; for every backends list the connection attempt behaves the
same, namely connect to the hard-coded local proxy URL and, on its
failure, launch a fresh default local browser. -/
theorem c3_fallback_amended {β : Type} (s1 s2 : YoutubeScraper)
    (connect : List Char → Except (List Char) β) (d : Except (List Char) β) :
    s1.attempt_proxy connect d = s2.attempt_proxy connect d ∧
    (∀ b, connect hardcodedProxyUrl = Except.ok b →
      s1.attempt_proxy connect d = Except.ok b) ∧
    (∀ e, connect hardcodedProxyUrl = Except.error e →
      s1.attempt_proxy connect d = d) := by
  refine ⟨rfl, ?_, ?_⟩
  · intro b hb
    simp [YoutubeScraper.attempt_proxy, hb]
  · intro e he
    simp [YoutubeScraper.attempt_proxy, he]

theorem c3_fallback_amended_witness :
    YoutubeScraper.attempt_proxy ⟨[]⟩ (fun _ => Except.ok 0) (Except.error []) =
      Except.ok 0 ∧
    YoutubeScraper.attempt_proxy ⟨[]⟩ (fun _ => Except.error []) (Except.ok 5) =
      Except.ok 5 :=
  ⟨(c3_fallback_amended ⟨[]⟩ ⟨[]⟩ (fun _ => Except.ok 0) (Except.error [])).2.1 0 rfl,
   (c3_fallback_amended ⟨[]⟩ ⟨[]⟩ (fun _ => Except.error []) (Except.ok 5)).2.2 [] rfl⟩

/-! ### C8 -/

theorem filterMap_optMap {α β : Type} (f : α → β) (l : List (Option α)) :
    l.filterMap (fun o => o.map f) = (l.filterMap id).map f := by
  induction l with
  | nil => rfl
  | cons o rest ih => cases o <;> simp [ih]

/-- C8: a successful search navigates to the results-page URL made of the
site search prefix and the keywords joined with a literal plus sign, and
returns, in page presentation order, exactly the extracted href
attributes each prefixed with the site origin; every returned URL begins
with the origin. -/
theorem c8_search_url_and_links {β : Type} (self : YoutubeScraper)
    (connect : List Char → Except (List Char) β) (launchDefault : Except (List Char) β)
    (page : List Char → List (Option (List Char))) (q : SearchQuery)
    (urls : List (List Char))
    (hok : self.get_links connect launchDefault page q = Except.ok urls) :
    buildSearchUrl q = resultsPrefix ++ List.intercalate plusSep q.keywords ∧
    urls = ((page (buildSearchUrl q)).filterMap id).map (fun h => youtubeOrigin ++ h) ∧
    ∀ u ∈ urls, youtubeOrigin <+: u := by
  have hmain : urls = extractLinks (page (buildSearchUrl q)) := by
    revert hok
    unfold YoutubeScraper.get_links
    cases self.attempt_proxy connect launchDefault with
    | error e => intro hok; cases hok
    | ok b =>
      intro hok
      have := hok
      simp only [Except.ok.injEq] at this
      exact this.symm
  refine ⟨rfl, ?_, ?_⟩
  · rw [hmain]
    unfold extractLinks
    exact filterMap_optMap _ _
  · intro u hu
    rw [hmain] at hu
    unfold extractLinks at hu
    rw [filterMap_optMap] at hu
    rcases List.mem_map.mp hu with ⟨h2, _, rfl⟩
    exact List.prefix_append _ _

theorem c8_search_url_and_links_witness :
    buildSearchUrl c8Query = resultsPrefix ++ List.intercalate plusSep c8Query.keywords ∧
    c8Urls = ((c8Page (buildSearchUrl c8Query)).filterMap id).map
      (fun h => youtubeOrigin ++ h) ∧
    ∀ u ∈ c8Urls, youtubeOrigin <+: u :=
  c8_search_url_and_links ⟨[]⟩ (fun _ => Except.ok 0) (Except.error [])
    c8Page c8Query c8Urls rfl

/-! ### C4 -/

theorem try_get_none {l : List Char}
    (h : (containsSub wsLit l && containsSub devLit l) = false) :
    DockerConfig.try_get_debug_ws_url l = none := by
  unfold DockerConfig.try_get_debug_ws_url
  cases hf : findSub wsLit l with
  | none => rfl
  | some i =>
    have hws : containsSub wsLit l = true := by simp [containsSub, hf]
    rw [hws] at h
    simp only [Bool.true_and] at h
    simp [h]

theorem try_get_some {l : List Char} {i : Nat}
    (hf : findSub wsLit l = some i) (hd : containsSub devLit l = true) :
    DockerConfig.try_get_debug_ws_url l = some (l.drop i) := by
  unfold DockerConfig.try_get_debug_ws_url
  simp [hf, hd]

theorem dwfl_cons_some {l : List Char} {ls : List (List Char)} {u : List Char}
    (h : DockerConfig.try_get_debug_ws_url l = some u) :
    DockerConfig.debug_ws_from_log (l :: ls) = Except.ok u := by
  have he : DockerConfig.debug_ws_from_log (l :: ls) =
      match DockerConfig.try_get_debug_ws_url l with
      | some u => Except.ok u
      | none => DockerConfig.debug_ws_from_log ls := rfl
  rw [he, h]

theorem dwfl_cons_none {l : List Char} {ls : List (List Char)}
    (h : DockerConfig.try_get_debug_ws_url l = none) :
    DockerConfig.debug_ws_from_log (l :: ls) = DockerConfig.debug_ws_from_log ls := by
  have he : DockerConfig.debug_ws_from_log (l :: ls) =
      match DockerConfig.try_get_debug_ws_url l with
      | some u => Except.ok u
      | none => DockerConfig.debug_ws_from_log ls := rfl
  rw [he, h]

/-- C4 counterexample: the claim requires the qualifying line to contain
ws:// followed later in the same line by /devtools/browser/.  On a log
consisting of the single line /devtools/browser/a ws://b, where the path
literal precedes the only ws:// occurrence, no line qualifies under the
claim, yet the scan returns the candidate ws://b instead of the no-match
failure. -/
theorem c4_log_scan_counterexample :
    DockerConfig.debug_ws_from_log [c4CexLine] = Except.ok ( "ws://b".data) ∧
    wsFollowedByDev c4CexLine = false := by
  exact ⟨rfl, by decide⟩

/-- C4 amended: the scan returns the candidate extracted from the first
line that contains ws:// and also contains /devtools/browser/ anywhere in
the line (the path literal need not follow the ws:// occurrence); the
candidate is the substring from the first ws:// to the end of that line;
if no line contains both substrings, it fails with the no-match error. -/
theorem c4_log_scan_amended :
    (∀ lines : List (List Char),
      (∀ l ∈ lines, (containsSub wsLit l && containsSub devLit l) = false) →
      DockerConfig.debug_ws_from_log lines = Except.error noMatchMsg) ∧
    (∀ (pre : List (List Char)) (l : List Char) (post : List (List Char)) (i : Nat),
      (∀ l2 ∈ pre, (containsSub wsLit l2 && containsSub devLit l2) = false) →
      findSub wsLit l = some i → containsSub devLit l = true →
      DockerConfig.debug_ws_from_log (pre ++ l :: post) = Except.ok (l.drop i)) := by
  constructor
  · intro lines h
    induction lines with
    | nil => rfl
    | cons l ls ih =>
      rw [dwfl_cons_none (try_get_none (h l (List.mem_cons_self l ls)))]
      exact ih fun l2 hl2 => h l2 (List.mem_cons_of_mem l hl2)
  · intro pre l post i hpre hf hd
    induction pre with
    | nil =>
      rw [List.nil_append]
      exact dwfl_cons_some (try_get_some hf hd)
    | cons l2 ls ih =>
      rw [List.cons_append,
        dwfl_cons_none (try_get_none (hpre l2 (List.mem_cons_self l2 ls)))]
      exact ih fun l3 hl3 => hpre l3 (List.mem_cons_of_mem l2 hl3)

theorem c4_log_scan_amended_witness :
    DockerConfig.debug_ws_from_log [] = Except.error noMatchMsg ∧
    DockerConfig.debug_ws_from_log [c4PreLine, c4QualLine] =
      Except.ok (c4QualLine.drop 2) :=
  ⟨c4_log_scan_amended.1 [] (fun l hl => absurd hl (List.not_mem_nil l)),
   c4_log_scan_amended.2 [c4PreLine] c4QualLine [] 2
     (by decide) (by decide) (by decide)⟩

/-! ### C5 and C6 -/

theorem probePorts_cons {β : Type} (connect : List Char → Except (List Char) β)
    (comps : ProxyConfigComponents) (p : Nat) (ps : List Nat) (acc : List (List Char)) :
    probePorts connect comps (p :: ps) acc =
      match ProxyConfig.from_components comps.ip (some p) comps.token with
      | none => none
      | some cfg =>
        match connect cfg.debug_ws_url with
        | Except.ok b => some (Except.ok b)
        | Except.error e => probePorts connect comps ps (acc ++ [e]) := rfl

theorem probePorts_all_fail {β : Type} (connect : List Char → Except (List Char) β)
    (comps : ProxyConfigComponents) (pcfg : Nat → ProxyConfig) (msg : Nat → List Char) :
    ∀ (ports : List Nat) (acc : List (List Char)),
      (∀ p ∈ ports,
        ProxyConfig.from_components comps.ip (some p) comps.token = some (pcfg p)) →
      (∀ p ∈ ports, connect (pcfg p).debug_ws_url = Except.error (msg p)) →
      probePorts connect comps ports acc = some (Except.error (acc ++ ports.map msg)) := by
  intro ports
  induction ports with
  | nil => intro acc _ _; simp [probePorts]
  | cons p ps ih =>
    intro acc hfrom hconn
    rw [probePorts_cons, hfrom p (List.mem_cons_self p ps)]
    simp only [hconn p (List.mem_cons_self p ps)]
    rw [ih (acc ++ [msg p])
      (fun q hq => hfrom q (List.mem_cons_of_mem p hq))
      (fun q hq => hconn q (List.mem_cons_of_mem p hq))]
    simp

theorem browser_eq_probe {β : Type} (connect : List Char → Except (List Char) β)
    {logs : List (List Char)} {url : List Char} {comps : ProxyConfigComponents}
    (hlog : DockerConfig.debug_ws_from_log logs = Except.ok url)
    (hvalid : ProxyConfig.is_valid_url url = true)
    (hcomp : ProxyConfig.into_components ⟨url⟩ = some (Except.ok comps))
    (ports : List Nat) :
    DockerConfig.browser connect logs ports =
      probePorts connect { comps with ip := localhostStr } ports [] := by
  unfold DockerConfig.browser
  rw [hlog]
  simp only [DockerConfig.to_proxy_config, ProxyConfig.new, hvalid, if_true, hcomp]

/-- C5: when the log scan yields a valid candidate whose parse succeeds
and every candidate external port fails to connect, the Docker connect
operation returns the aggregated failure carrying, in probe order, one
entry per attempted port with that port's failure reason — no attempted
port's error is dropped. -/
theorem c5_port_error_aggregation {β : Type}
    (connect : List Char → Except (List Char) β)
    (logs : List (List Char)) (url : List Char) (comps : ProxyConfigComponents)
    (pcfg : Nat → ProxyConfig) (msg : Nat → List Char) (ports : List Nat)
    (hlog : DockerConfig.debug_ws_from_log logs = Except.ok url)
    (hvalid : ProxyConfig.is_valid_url url = true)
    (hcomp : ProxyConfig.into_components ⟨url⟩ = some (Except.ok comps))
    (hfrom : ∀ p ∈ ports,
      ProxyConfig.from_components localhostStr (some p) comps.token = some (pcfg p))
    (hconn : ∀ p ∈ ports, connect (pcfg p).debug_ws_url = Except.error (msg p)) :
    DockerConfig.browser connect logs ports = some (Except.error (ports.map msg)) ∧
    (ports.map msg).length = ports.length := by
  refine ⟨?_, List.length_map ports msg⟩
  rw [browser_eq_probe connect hlog hvalid hcomp ports]
  have h := probePorts_all_fail connect { comps with ip := localhostStr } pcfg msg
    ports [] (by simpa using hfrom) (by simpa using hconn)
  simpa using h

theorem c5_port_error_aggregation_witness :
    DockerConfig.browser c5Connect [c5LogLine] [2, 3] =
      some (Except.error ([2, 3].map c5Msg)) ∧
    ([2, 3].map c5Msg).length = ([2, 3] : List Nat).length :=
  c5_port_error_aggregation c5Connect [c5LogLine] c5Candidate
    ⟨ "0.0.0.0".data, some 33, tokStr⟩ c5Pcfg c5Msg [2, 3]
    rfl rfl rfl (by intro p hp; fin_cases hp <;> rfl) (fun p _ => rfl)

/-- C6: candidate ports are probed sequentially in the order given by the
port query, each probe rebuilding the endpoint with host forced to
localhost, the log-derived token preserved and the candidate port
substituted; when the first probed port connects, its connection is
returned, whatever the remaining ports are — no subsequent port is
attempted. -/
theorem c6_first_port_success {β : Type}
    (connect : List Char → Except (List Char) β)
    (logs : List (List Char)) (url : List Char) (comps : ProxyConfigComponents)
    (cfg1 : ProxyConfig) (b : β) (p : Nat)
    (hlog : DockerConfig.debug_ws_from_log logs = Except.ok url)
    (hvalid : ProxyConfig.is_valid_url url = true)
    (hcomp : ProxyConfig.into_components ⟨url⟩ = some (Except.ok comps))
    (hfrom : ProxyConfig.from_components localhostStr (some p) comps.token = some cfg1)
    (hconn : connect cfg1.debug_ws_url = Except.ok b) :
    ∀ rest : List Nat,
      DockerConfig.browser connect logs (p :: rest) = some (Except.ok b) := by
  intro rest
  rw [browser_eq_probe connect hlog hvalid hcomp (p :: rest), probePorts_cons]
  have hip : ({ comps with ip := localhostStr } : ProxyConfigComponents).ip =
      localhostStr := rfl
  have htok : ({ comps with ip := localhostStr } : ProxyConfigComponents).token =
      comps.token := rfl
  rw [hip, htok, hfrom]
  simp only [hconn]

theorem c6_first_port_success_witness :
    DockerConfig.browser c6Connect [c6LogLine] [7, 8, 9] = some (Except.ok 1) :=
  c6_first_port_success c6Connect [c6LogLine] c6LogLine
    ⟨ "a".data, none, tokStr⟩ c6Cfg1 1 7
    rfl rfl rfl rfl rfl [8, 9]

/-! ### Lemmas on the endpoint matcher (towards C2 and C1) -/

theorem matchPath_iff {r : List Char} :
    matchPath r = true ↔ ∃ t, r = devLit ++ t ∧ TokenOk t := by
  constructor
  · intro hm
    unfold matchPath at hm
    cases hs : stripPre devLit r with
    | none => rw [hs] at hm; cases hm
    | some t =>
      rw [hs] at hm
      simp only [Bool.and_eq_true, Bool.not_eq_true', List.all_eq_true] at hm
      refine ⟨t, stripPre_eq_some hs, ?_, ?_⟩
      · intro ht
        subst ht
        simp at hm
      · intro c hc
        simpa using hm.2 c hc
  · rintro ⟨t, rfl, htne, hnl⟩
    unfold matchPath
    rw [stripPre_append]
    simp only [Bool.and_eq_true, Bool.not_eq_true', List.all_eq_true]
    constructor
    · simpa [List.isEmpty_iff] using htne
    · intro c hc
      simpa using hnl c hc

theorem matchPort_append_digits (ds : List Char) (hds : ∀ c ∈ ds, c.isDigit = true)
    (r : List Char) : matchPort (ds ++ r) = matchPort r := by
  induction ds with
  | nil => rfl
  | cons c cs ih =>
    have hc := hds c (List.mem_cons_self c cs)
    simp only [List.cons_append, matchPort, hc, if_true]
    exact ih fun x hx => hds x (List.mem_cons_of_mem c hx)

theorem matchPort_devLit (t : List Char) :
    matchPort (devLit ++ t) = matchPath (devLit ++ t) := rfl

theorem matchHost_devLit (t : List Char) :
    matchHost (devLit ++ t) = matchPath (devLit ++ t) := rfl

theorem matchHost_colon (q : List Char) : matchHost (':' :: q) = matchPort q := rfl

theorem matchAnchored_wsLit (r : List Char) :
    matchAnchored (wsLit ++ r) = matchHost r := rfl

theorem matchHost_append {h : List Char} (hh : HostOk h) (r : List Char) :
    matchHost (h ++ r) = matchHost r := by
  induction h with
  | nil => rfl
  | cons c cs ih =>
    have hc := hh c (List.mem_cons_self c cs)
    simp only [List.cons_append, matchHost, if_neg hc.1, if_neg hc.2]
    exact ih fun x hx => hh x (List.mem_cons_of_mem c hx)

theorem matchPort_inv {r : List Char} (hm : matchPort r = true) :
    ∃ ds r2, r = ds ++ r2 ∧ (∀ c ∈ ds, c.isDigit = true) ∧ matchPath r2 = true := by
  induction r with
  | nil => cases hm
  | cons c cs ih =>
    by_cases hd : c.isDigit
    · have hm2 : matchPort cs = true := by simpa [matchPort, hd] using hm
      rcases ih hm2 with ⟨ds, r2, heq, hds, hp⟩
      refine ⟨c :: ds, r2, by simp [heq], ?_, hp⟩
      intro x hx
      rcases List.mem_cons.mp hx with rfl | hx
      · exact hd
      · exact hds x hx
    · by_cases hs : c = '/'
      · subst hs
        have hm2 : matchPath ('/' :: cs) = true := by simpa [matchPort, hd] using hm
        exact ⟨[], '/' :: cs, rfl, by simp, hm2⟩
      · simp [matchPort, hd, hs] at hm

theorem matchHost_inv {r : List Char} (hm : matchHost r = true) :
    ∃ h r2, r = h ++ r2 ∧ HostOk h ∧
      ((∃ q, r2 = ':' :: q ∧ matchPort q = true) ∨ matchPath r2 = true) := by
  induction r with
  | nil => cases hm
  | cons c cs ih =>
    by_cases hcol : c = ':'
    · subst hcol
      have hm2 : matchPort cs = true := by simpa [matchHost] using hm
      exact ⟨[], ':' :: cs, rfl, by simp [HostOk], Or.inl ⟨cs, rfl, hm2⟩⟩
    · by_cases hsl : c = '/'
      · subst hsl
        have hm2 : matchPath ('/' :: cs) = true := by simpa [matchHost, hcol] using hm
        exact ⟨[], '/' :: cs, rfl, by simp [HostOk], Or.inr hm2⟩
      · have hm2 : matchHost cs = true := by simpa [matchHost, hcol, hsl] using hm
        rcases ih hm2 with ⟨h, r2, heq, hh, hcase⟩
        refine ⟨c :: h, r2, by simp [heq], ?_, hcase⟩
        intro x hx
        rcases List.mem_cons.mp hx with rfl | hx
        · exact ⟨hcol, hsl⟩
        · exact hh x hx

theorem matchAnchored_of_shape {h P t : List Char} (hh : HostOk h) (hP : PortOk P)
    (ht : TokenOk t) :
    matchAnchored (wsLit ++ (h ++ (P ++ (devLit ++ t)))) = true := by
  rw [matchAnchored_wsLit, matchHost_append hh]
  rcases hP with rfl | ⟨ds, rfl, hds⟩
  · rw [List.nil_append, matchHost_devLit]
    exact matchPath_iff.mpr ⟨t, rfl, ht⟩
  · rw [List.cons_append, matchHost_colon, matchPort_append_digits ds hds,
      matchPort_devLit]
    exact matchPath_iff.mpr ⟨t, rfl, ht⟩

theorem shape_of_matchAnchored {s : List Char} (hm : matchAnchored s = true) :
    UrlShape s := by
  unfold matchAnchored at hm
  cases hs : stripPre wsLit s with
  | none => rw [hs] at hm; cases hm
  | some r =>
    rw [hs] at hm
    have hsr := stripPre_eq_some hs
    rcases matchHost_inv hm with ⟨h, r2, hr, hh, hcase⟩
    rcases hcase with ⟨q, hq, hport⟩ | hpath
    · rcases matchPort_inv hport with ⟨ds, r3, hq2, hds, hpath⟩
      rcases matchPath_iff.mp hpath with ⟨t, ht3, htok⟩
      refine ⟨h, ':' :: ds, t, ?_, hh, Or.inr ⟨ds, rfl, hds⟩, htok⟩
      simp [hsr, hr, hq, hq2, ht3, List.append_assoc]
    · rcases matchPath_iff.mp hpath with ⟨t, ht2, htok⟩
      refine ⟨h, [], t, ?_, hh, Or.inl rfl, htok⟩
      simp [hsr, hr, ht2, List.append_assoc]

theorem matchAnchored_iff_shape {s : List Char} :
    matchAnchored s = true ↔ UrlShape s := by
  constructor
  · exact shape_of_matchAnchored
  · rintro ⟨h, P, t, rfl, hh, hP, ht⟩
    have := matchAnchored_of_shape hh hP ht
    simpa [List.append_assoc] using this

theorem matchSomewhere_iff {s : List Char} :
    matchSomewhere s = true ↔ ∃ i, matchAnchored (s.drop i) = true := by
  induction s with
  | nil =>
    constructor
    · intro hm; exact ⟨0, hm⟩
    · rintro ⟨i, hi⟩; simpa [List.drop_nil] using hi
  | cons c cs ih =>
    constructor
    · intro hm
      rcases Bool.or_eq_true_iff.mp (by simpa [matchSomewhere] using hm) with ha | hrest
      · exact ⟨0, ha⟩
      · rcases ih.mp hrest with ⟨i, hi⟩
        exact ⟨i + 1, by simpa using hi⟩
    · rintro ⟨i, hi⟩
      cases i with
      | zero =>
        simp only [matchSomewhere]
        rw [List.drop_zero] at hi
        simp [hi]
      | succ j =>
        simp only [matchSomewhere]
        have : matchSomewhere cs = true := ih.mpr ⟨j, by simpa using hi⟩
        simp [this]

/-! ### C2 -/

/-- C2 counterexample: the claim says validation holds iff the whole URL
matches the shape ws:// host [: port] /devtools/browser/ token.  The
string xws://h/devtools/browser/t does not match that shape (it does not
even start with ws://), yet is_valid_url accepts it, because
Regex::is_match is unanchored and finds the match starting at index 1. -/
theorem c2_validation_counterexample :
    ProxyConfig.is_valid_url c2CexUrl = true ∧ ¬ ClaimShape c2CexUrl := by
  refine ⟨rfl, ?_⟩
  rintro ⟨h, P, t, heq, -, -, -⟩
  have h5 : List.take 5 c2CexUrl = List.take 5 (wsLit ++ (h ++ (P ++ (devLit ++ t)))) := by
    rw [heq]
    simp [List.append_assoc]
  rw [show List.take 5 (wsLit ++ (h ++ (P ++ (devLit ++ t)))) =
      List.take wsLit.length (wsLit ++ (h ++ (P ++ (devLit ++ t)))) from rfl,
    takeLenAppend] at h5
  exact absurd h5 (by decide)

/-- C2 amended: is_valid_url url is true iff some suffix of url matches
the shape ws:// host [: port] /devtools/browser/ token, where the host
contains neither a colon nor a slash, the port is decimal digits, and the
token is one or more non-newline characters extending to the end of the
string.  In particular a URL embedded after arbitrary text is accepted,
and a token containing a newline is rejected. -/
theorem c2_validation_amended (s : List Char) :
    ProxyConfig.is_valid_url s = true ↔ ∃ i, UrlShape (s.drop i) := by
  unfold ProxyConfig.is_valid_url
  rw [matchSomewhere_iff]
  constructor
  · rintro ⟨i, hi⟩
    exact ⟨i, shape_of_matchAnchored hi⟩
  · rintro ⟨i, hi⟩
    exact ⟨i, matchAnchored_iff_shape.mpr hi⟩

/-! ### Lemmas on decimal rendering and parsing (towards C1) -/

theorem digitChar_isDigit : ∀ d < 10, (digitChar d).isDigit = true := by decide

theorem digitVal_digitChar : ∀ d < 10, digitVal (digitChar d) = d := by decide

theorem natToStrAux_ne_nil : ∀ fuel n, n < fuel → natToStrAux fuel n ≠ [] := by
  intro fuel
  induction fuel with
  | zero => intro n h; omega
  | succ f ih =>
    intro n _
    by_cases h10 : n < 10
    · simp [natToStrAux, h10]
    · simp [natToStrAux, h10]

theorem natToStrAux_digits : ∀ fuel n, n < fuel →
    ∀ c ∈ natToStrAux fuel n, c.isDigit = true := by
  intro fuel
  induction fuel with
  | zero => intro n h; omega
  | succ f ih =>
    intro n hn c hc
    by_cases h10 : n < 10
    · simp only [natToStrAux, if_pos h10, List.mem_singleton] at hc
      subst hc
      exact digitChar_isDigit n h10
    · simp only [natToStrAux, if_neg h10] at hc
      rcases List.mem_append.mp hc with hc | hc
      · have hdiv : n / 10 < f := by
          have := Nat.div_lt_self (by omega : 0 < n) (by omega : 1 < 10)
          omega
        exact ih (n / 10) hdiv c hc
      · simp only [List.mem_singleton] at hc
        subst hc
        exact digitChar_isDigit _ (Nat.mod_lt n (by omega))

theorem natToStrAux_foldl : ∀ fuel n, n < fuel → ∀ a : Nat,
    (natToStrAux fuel n).foldl (fun x c => x * 10 + digitVal c) a =
      a * 10 ^ (natToStrAux fuel n).length + n := by
  intro fuel
  induction fuel with
  | zero => intro n h; omega
  | succ f ih =>
    intro n hn a
    by_cases h10 : n < 10
    · simp [natToStrAux, h10, digitVal_digitChar n h10]
    · have hdiv : n / 10 < f := by
        have := Nat.div_lt_self (by omega : 0 < n) (by omega : 1 < 10)
        omega
      simp only [natToStrAux, if_neg h10, List.foldl_append, List.length_append,
        List.foldl_cons, List.foldl_nil, List.length_singleton]
      rw [ih (n / 10) hdiv a]
      rw [digitVal_digitChar (n % 10) (Nat.mod_lt n (by omega))]
      rw [pow_succ]
      have h2 : 10 * (n / 10) + n % 10 = n := Nat.div_add_mod n 10
      calc (a * 10 ^ (natToStrAux f (n / 10)).length + n / 10) * 10 + n % 10
          = a * (10 ^ (natToStrAux f (n / 10)).length * 10) +
              (10 * (n / 10) + n % 10) := by ring
        _ = a * (10 ^ (natToStrAux f (n / 10)).length * 10) + n := by rw [h2]

theorem natToStr_ne_nil (n : Nat) : natToStr n ≠ [] :=
  natToStrAux_ne_nil (n + 1) n (Nat.lt_succ_self n)

theorem natToStr_digits (n : Nat) : ∀ c ∈ natToStr n, c.isDigit = true :=
  natToStrAux_digits (n + 1) n (Nat.lt_succ_self n)

theorem parseDigits_natToStr (n : Nat) : parseDigits (natToStr n) = n := by
  have h := natToStrAux_foldl (n + 1) n (Nat.lt_succ_self n) 0
  simpa [parseDigits, natToStr] using h

theorem parseU16_digits {s : List Char} (hne : s ≠ [])
    (hd : ∀ c ∈ s, c.isDigit = true) (hv : parseDigits s ≤ 65535) :
    parseU16 s = some (parseDigits s) := by
  cases s with
  | nil => exact absurd rfl hne
  | cons c cs =>
    have hcd := hd c (List.mem_cons_self c cs)
    have hplus : ¬ (c = '+') := by
      intro h
      subst h
      exact absurd hcd (by decide)
    have hall : (c :: cs).all Char.isDigit = true := List.all_eq_true.mpr hd
    simp [parseU16, stripPlus, hplus, hall, hv]

theorem parseU16_natToStr {p : Nat} (hp : p ≤ 65535) :
    parseU16 (natToStr p) = some p := by
  rw [parseU16_digits (natToStr_ne_nil p) (natToStr_digits p)
    (by rw [parseDigits_natToStr]; exact hp)]
  rw [parseDigits_natToStr]

/-! ### Computation lemmas for the codec on shaped URLs (towards C1) -/

theorem digit_ne_slash {c : Char} (h : c.isDigit = true) : c ≠ '/' := by
  intro hc
  subst hc
  exact absurd h (by decide)

theorem devLit_no_colon : ∀ c ∈ devLit, c ≠ ':' := by decide

theorem drop5_wsLit (r : List Char) : (wsLit ++ r).drop 5 = r := by
  rw [show (5 : Nat) = wsLit.length from rfl, dropLenAppend]

theorem drop18_devLit (t : List Char) : (devLit ++ t).drop 18 = t := by
  rw [show (18 : Nat) = devLit.length from rfl, dropLenAppend]

theorem charIdx_slash_devLit (t : List Char) : charIdx '/' (devLit ++ t) = some 0 := rfl

theorem matchSomewhere_of_anchored {s : List Char} (h : matchAnchored s = true) :
    matchSomewhere s = true := by
  cases s with
  | nil => exact absurd h (by decide)
  | cons c cs => simp [matchSomewhere, h]

theorem is_valid_noport {a t : List Char} (hh : HostOk a) (ht : TokenOk t) :
    ProxyConfig.is_valid_url (wsLit ++ (a ++ (devLit ++ t))) = true := by
  have h := matchSomewhere_of_anchored (matchAnchored_of_shape hh (Or.inl rfl) ht)
  simpa [ProxyConfig.is_valid_url, List.append_assoc] using h

theorem is_valid_port {a t : List Char} {p : Nat} (hh : HostOk a) (ht : TokenOk t) :
    ProxyConfig.is_valid_url
      (wsLit ++ (a ++ (':' :: (natToStr p ++ (devLit ++ t))))) = true := by
  have h := matchSomewhere_of_anchored
    (matchAnchored_of_shape hh (Or.inr ⟨natToStr p, rfl, natToStr_digits p⟩) ht)
  simpa [ProxyConfig.is_valid_url, List.append_assoc] using h

theorem into_components_noport (a t : List Char) (hh : HostOk a) (hcol : ':' ∉ t) :
    ProxyConfig.into_components ⟨wsLit ++ (a ++ (devLit ++ t))⟩ =
      some (Except.ok ⟨a, none, t⟩) := by
  have hdrop : (wsLit ++ (a ++ (devLit ++ t))).drop 5 = a ++ (devLit ++ t) :=
    drop5_wsLit _
  have hslash : charIdx '/' (a ++ (devLit ++ t)) = some a.length := by
    rw [charIdx_append_of_not_mem (devLit ++ t) (fun x hx => (hh x hx).2),
      charIdx_slash_devLit]
    simp
  have hcolon : charIdx ':' (a ++ (devLit ++ t)) = none := by
    apply charIdx_eq_none
    intro x hx
    rcases List.mem_append.mp hx with hx | hx
    · exact (hh x hx).1
    · rcases List.mem_append.mp hx with hx | hx
      · exact devLit_no_colon x hx
      · exact fun hcc => hcol (hcc ▸ hx)
  simp only [ProxyConfig.into_components, hdrop, hslash, hcolon]
  rw [takeLenAppend, dropLenAppend, drop18_devLit]

theorem into_components_port (a t : List Char) (p : Nat) (hh : HostOk a)
    (hp : p ≤ 65535) :
    ProxyConfig.into_components ⟨wsLit ++ (a ++ (':' :: (natToStr p ++ (devLit ++ t))))⟩ =
      some (Except.ok ⟨a, some p, t⟩) := by
  have hdig := natToStr_digits p
  have hdrop : (wsLit ++ (a ++ (':' :: (natToStr p ++ (devLit ++ t))))).drop 5 =
      a ++ (':' :: (natToStr p ++ (devLit ++ t))) := drop5_wsLit _
  have hinner : charIdx '/' (':' :: (natToStr p ++ (devLit ++ t))) =
      some ((natToStr p).length + 1) := by
    have h1 : charIdx '/' (natToStr p ++ (devLit ++ t)) = some (natToStr p).length := by
      rw [charIdx_append_of_not_mem (devLit ++ t)
        (fun x hx => digit_ne_slash (hdig x hx)), charIdx_slash_devLit]
      simp
    simp [charIdx, h1]
  have hslash : charIdx '/' (a ++ (':' :: (natToStr p ++ (devLit ++ t)))) =
      some (a.length + ((natToStr p).length + 1)) := by
    rw [charIdx_append_of_not_mem _ (fun x hx => (hh x hx).2), hinner]
    simp
  have hcolon : charIdx ':' (a ++ (':' :: (natToStr p ++ (devLit ++ t)))) =
      some a.length := by
    rw [charIdx_append_of_not_mem _ (fun x hx => (hh x hx).1)]
    simp [charIdx]
  simp only [ProxyConfig.into_components, hdrop, hslash, hcolon]
  have hdrop1 : (a ++ (':' :: (natToStr p ++ (devLit ++ t)))).drop (a.length + 1) =
      natToStr p ++ (devLit ++ t) := by
    have hre : a ++ (':' :: (natToStr p ++ (devLit ++ t))) =
        (a ++ [':']) ++ (natToStr p ++ (devLit ++ t)) := by simp
    rw [hre, show a.length + 1 = (a ++ [':']).length from by simp, dropLenAppend]
  have harith : a.length + ((natToStr p).length + 1) - (a.length + 1) =
      (natToStr p).length := by omega
  rw [hdrop1, harith, takeLenAppend, parseU16_natToStr hp]
  have hdrop2 : (a ++ (':' :: (natToStr p ++ (devLit ++ t)))).drop
      (a.length + ((natToStr p).length + 1)) = devLit ++ t := by
    have hre : a ++ (':' :: (natToStr p ++ (devLit ++ t))) =
        (a ++ ':' :: natToStr p) ++ (devLit ++ t) := by simp
    rw [hre, show a.length + ((natToStr p).length + 1) =
      (a ++ ':' :: natToStr p).length from by simp, dropLenAppend]
  rw [takeLenAppend, hdrop2, drop18_devLit]

theorem from_components_noport (a t : List Char) (hh : HostOk a) (ht : TokenOk t) :
    ProxyConfig.from_components a none t = some ⟨wsLit ++ (a ++ (devLit ++ t))⟩ := by
  have hv := is_valid_noport hh ht
  have harg : wsLit ++ a ++ ([] : List Char) ++ devLit ++ t =
      wsLit ++ (a ++ (devLit ++ t)) := by simp [List.append_assoc]
  simp [ProxyConfig.from_components, ProxyConfig.new, harg, hv]

theorem from_components_port (a t : List Char) (p : Nat) (hh : HostOk a)
    (ht : TokenOk t) :
    ProxyConfig.from_components a (some p) t =
      some ⟨wsLit ++ (a ++ (':' :: (natToStr p ++ (devLit ++ t))))⟩ := by
  have hv := is_valid_port (p := p) hh ht
  have harg : wsLit ++ a ++ (':' :: natToStr p) ++ devLit ++ t =
      wsLit ++ (a ++ (':' :: (natToStr p ++ (devLit ++ t)))) := by
    simp [List.append_assoc]
  simp [ProxyConfig.from_components, ProxyConfig.new, harg, hv]

/-! ### C1 -/

/-- C1 counterexample: ws://h:07/devtools/browser/t is accepted by
validation, but formatting its parse yields ws://h:7/devtools/browser/t —
the leading zero of the port is lost, so format (parse u) differs from u
on a validated input. -/
theorem c1_roundtrip_counterexample :
    ProxyConfig.is_valid_url c1CexUrl = true ∧
    ProxyConfig.into_components ⟨c1CexUrl⟩ =
      some (Except.ok ⟨ "h".data, some 7, "t".data⟩) ∧
    ProxyConfig.from_components ( "h".data) (some 7) ( "t".data) = some ⟨c1CexOut⟩ ∧
    c1CexOut ≠ c1CexUrl :=
  ⟨rfl, rfl, rfl, by decide⟩

/-- C1 amended: the codec round-trips on canonically written endpoint
URLs.  For a host with neither colon nor slash and a non-empty token
without a newline: if the URL has no port segment and the token has no
colon, or if the port segment is the canonical decimal rendering (no
leading zeros, no sign) of a value at most 65535, then the URL is
validated, into_components returns exactly the components, and
from_components re-produces exactly the URL — and conversely the same
equations say that parsing the formatted components restores the
components. -/
theorem c1_roundtrip_amended :
    (∀ a t, HostOk a → TokenOk t → ':' ∉ t →
      ProxyConfig.is_valid_url (wsLit ++ (a ++ (devLit ++ t))) = true ∧
      ProxyConfig.into_components ⟨wsLit ++ (a ++ (devLit ++ t))⟩ =
        some (Except.ok ⟨a, none, t⟩) ∧
      ProxyConfig.from_components a none t =
        some ⟨wsLit ++ (a ++ (devLit ++ t))⟩) ∧
    (∀ a t p, HostOk a → TokenOk t → p ≤ 65535 →
      ProxyConfig.is_valid_url
        (wsLit ++ (a ++ (':' :: (natToStr p ++ (devLit ++ t))))) = true ∧
      ProxyConfig.into_components
          ⟨wsLit ++ (a ++ (':' :: (natToStr p ++ (devLit ++ t))))⟩ =
        some (Except.ok ⟨a, some p, t⟩) ∧
      ProxyConfig.from_components a (some p) t =
        some ⟨wsLit ++ (a ++ (':' :: (natToStr p ++ (devLit ++ t))))⟩) := by
  constructor
  · intro a t hh ht hcol
    exact ⟨is_valid_noport hh ht, into_components_noport a t hh hcol,
      from_components_noport a t hh ht⟩
  · intro a t p hh ht hp
    exact ⟨is_valid_port hh ht, into_components_port a t p hh hp,
      from_components_port a t p hh ht⟩

theorem c1_roundtrip_amended_witness :
    (ProxyConfig.is_valid_url (wsLit ++ ( "h".data ++ (devLit ++ "t".data))) = true ∧
     ProxyConfig.into_components ⟨wsLit ++ ( "h".data ++ (devLit ++ "t".data))⟩ =
       some (Except.ok ⟨ "h".data, none, "t".data⟩) ∧
     ProxyConfig.from_components ( "h".data) none ( "t".data) =
       some ⟨wsLit ++ ( "h".data ++ (devLit ++ "t".data))⟩) ∧
    (ProxyConfig.is_valid_url
        (wsLit ++ ( "h".data ++ (':' :: (natToStr 7 ++ (devLit ++ "t".data))))) = true ∧
     ProxyConfig.into_components
         ⟨wsLit ++ ( "h".data ++ (':' :: (natToStr 7 ++ (devLit ++ "t".data))))⟩ =
       some (Except.ok ⟨ "h".data, some 7, "t".data⟩) ∧
     ProxyConfig.from_components ( "h".data) (some 7) ( "t".data) =
       some ⟨wsLit ++ ( "h".data ++ (':' :: (natToStr 7 ++ (devLit ++ "t".data))))⟩) :=
  ⟨c1_roundtrip_amended.1 ( "h".data) ( "t".data)
     (by unfold HostOk; decide) (by unfold TokenOk; decide) (by decide),
   c1_roundtrip_amended.2 ( "h".data) ( "t".data) 7
     (by unfold HostOk; decide) (by unfold TokenOk; decide) (by decide)⟩
